import Mathlib

/-!
Verification development for the Copado Robotic Testing API client
(src/libraries/CopadoRoboticTestingAPI.py).

The Python code is shallowly embedded: strings are lists of characters,
Python dicts used as ordered string maps are association lists with
in-place update, the HTTP transport is an explicit response argument, and
the mutable client object is threaded as explicit state.  Functions that
may raise Python exceptions return a `PyResult`.
-/

namespace CRT

/-- Strings of the embedded program: Python str as a list of characters. -/
abbrev Str := List Char

/-- Python s.split(sep) for a one-character separator: splits on every
occurrence, keeping empty segments; the empty string yields one empty
segment, as in Python. -/
def splitOnC (sep : Char) : Str → List Str
  | [] => [[]]
  | c :: cs =>
    if c = sep then [] :: splitOnC sep cs
    else
      match splitOnC sep cs with
      | [] => [[c]]
      | s :: ss => (c :: s) :: ss

/-- Python s.split(sep, 1) for a one-character separator: the part before
the first occurrence, and (when the separator occurs) the part after it. -/
def splitFirst (sep : Char) : Str → Str × Option Str
  | [] => ([], none)
  | c :: cs =>
    if c = sep then ([], some cs)
    else
      let r := splitFirst sep cs
      (c :: r.1, r.2)

/-- Python s.strip(): remove whitespace from both ends. -/
def pyStrip (l : Str) : Str :=
  ((l.dropWhile Char.isWhitespace).reverse.dropWhile Char.isWhitespace).reverse

/-- Ordered string dictionary, as Python dict restricted to str keys and
values: an association list whose keys are kept unique. -/
abbrev Dict := List (Str × Str)

/-- Python d[k] = v on a dict: replace the value in place if the key is
present (order preserved), otherwise append the new entry. -/
def dictSet : Dict → Str → Str → Dict
  | [], k, v => [(k, v)]
  | (k', v') :: rest, k, v =>
    if k' = k then (k, v) :: rest else (k', v') :: dictSet rest k v

/-- Python d.get(k): the value stored for a key, if any. -/
def dictGet : Dict → Str → Option Str
  | [], _ => none
  | (k', v') :: rest, k => if k' = k then some v' else dictGet rest k

/-- One iteration of the Set-Cookie parsing loop of
_parse_cookies_from_set_cookie_headers: split the raw header on commas;
for each piece, strip it, take the segment before the first semicolon as
the name=value part, split that on the first equals sign only, strip name
and value, and store the pair (later entries overwrite earlier ones). -/
def parseSetCookieHeaderInto (d : Dict) (header : Str) : Dict :=
  (splitOnC ',' header).foldl
    (fun d part0 =>
      let part := pyStrip part0
      if part.contains '=' then
        let nameValue := (splitOnC ';' part).headD []
        if nameValue.contains '=' then
          let nv := splitFirst '=' nameValue
          dictSet d (pyStrip nv.1) (pyStrip (nv.2.getD []))
        else d
      else d)
    d

/-- The cookie parser _parse_cookies_from_set_cookie_headers, applied to
the list of raw Set-Cookie header strings (empty header strings are
skipped, as by Python truthiness). -/
def parseCookies (headers : List Str) : Dict :=
  headers.foldl (fun d h => if h = [] then d else parseSetCookieHeaderInto d h) []

/-- Python str.lower() on one character, for the ASCII range relevant to
file extensions: uppercase A-Z (codepoints 65-90) map 32 codepoints up,
everything else is unchanged. -/
def pyLowerChar (c : Char) : Char :=
  if 65 ≤ c.toNat ∧ c.toNat ≤ 90 then Char.ofNat (c.toNat + 32) else c

/-- Python file_path.lower(). -/
def pyLower (l : Str) : Str := l.map pyLowerChar

/-- Python os.path.basename: the part of the path after the last slash. -/
def basename (p : Str) : Str := (p.reverse.takeWhile (fun c => c ≠ '/')).reverse

/-- Extension component of Python os.path.splitext (posix): within the
last path component, ignore leading dots; if a dot remains, the extension
runs from the last dot to the end, otherwise it is empty. -/
def extOf (p : Str) : Str :=
  if (((basename p).dropWhile (fun c => c = '.')).contains '.') then
    '.' :: ((((basename p).dropWhile (fun c => c = '.')).reverse.takeWhile
      (fun c => c ≠ '.')).reverse)
  else []

/-- The BINARY_EXTENSIONS class constant: the fixed known-binary
extension set. -/
def BINARY_EXTENSIONS : List Str :=
  [".xlsx".toList, ".xls".toList, ".xlsm".toList, ".xlsb".toList,
   ".docx".toList, ".doc".toList, ".docm".toList,
   ".pptx".toList, ".ppt".toList, ".pptm".toList,
   ".pdf".toList,
   ".zip".toList, ".rar".toList, ".7z".toList,
   ".jpg".toList, ".jpeg".toList, ".png".toList, ".gif".toList, ".bmp".toList, ".tiff".toList,
   ".mp3".toList, ".wav".toList, ".mp4".toList, ".avi".toList,
   ".exe".toList, ".dll".toList, ".so".toList,
   ".jar".toList, ".war".toList,
   ".bin".toList, ".dat".toList]

/-- The method _is_binary_file.  The environment-dependent inputs are
explicit: mimeType is the result of mimetypes.guess_type on the path
(none when the guess yields nothing), and prefixUtf8Ok says whether the
trial read of the first 1024 characters of the file as UTF-8 text
succeeds.  The call sites all check that the file exists first, so the
trial-read open is assumed not to raise FileNotFoundError. -/
def isBinaryFile (filePath : Str) (forceBinary : Option Bool)
    (mimeType : Option Str) (prefixUtf8Ok : Bool) : Bool :=
  match forceBinary with
  | some b => b
  | none =>
    if BINARY_EXTENSIONS.contains (extOf (pyLower filePath)) then true
    else
      match mimeType with
      | some mt =>
        if ¬ ("text/".toList.isPrefixOf mt) ∧ mt ≠ "application/json".toList then true
        else !prefixUtf8Ok
      | none => !prefixUtf8Ok

/-- Python exceptions that the embedded code can raise. -/
inductive PyExc
  | requestException
  | keyError
  | valueError
  | unicodeDecodeError
  | fileNotFoundError
  deriving DecidableEq, Repr

/-- Outcome of a Python call: a returned value or a raised exception. -/
inductive PyResult (α : Type)
  | ret (a : α)
  | raise (e : PyExc)
  deriving DecidableEq, Repr

/-- The derived session header set, as the Python dict literal built in
_get_robotic_headers (an ordered string map). -/
abbrev RHeaders := Dict

/-- Mutable state of a CopadoRoboticTestingAPI instance, as far as the
protocol logic is concerned: construction-time credentials plus the
_cached_headers field (None at construction). -/
structure Client where
  personal_access_token : Str
  project_id : Str
  job_id : Str
  cached_headers : Option RHeaders
  deriving DecidableEq, Repr

/-- Outcome of the bootstrap GET on the robots endpoint, as seen by
_get_robotic_headers: either requests.get/raise_for_status raises a
RequestException, or the request succeeds and delivers a list of raw
Set-Cookie header strings. -/
inductive BootstrapResult
  | netFail
  | success (setCookies : List Str)
  deriving DecidableEq, Repr

/-- The method clear_headers_cache. -/
def clear_headers_cache (c : Client) : Client := { c with cached_headers := none }

/-- The cookie name _pace-csrf. -/
def csrfKey : Str := "_pace-csrf".toList

/-- The cookie name PACE-XSRF-TOKEN. -/
def xsrfKey : Str := "PACE-XSRF-TOKEN".toList

/-- The method _get_robotic_headers.  Returns the Python result (headers
or None), the client state afterwards, and the number of bootstrap
network requests performed during the call. -/
def get_robotic_headers (c : Client) (resp : BootstrapResult) :
    Option RHeaders × Client × Nat :=
  match c.cached_headers with
  | some h => (some h, c, 0)
  | none =>
    match resp with
    | .netFail => (none, c, 1)
    | .success setCookies =>
      let cookies := parseCookies setCookies
      let csrfCookie := dictGet cookies csrfKey
      let xsrfToken := dictGet cookies xsrfKey
      match xsrfToken with
      | none => (none, c, 1)
      | some v =>
        if v = [] then (none, c, 1)
        else
          let cookieParts :=
            (match csrfCookie with
             | some cv => if cv = [] then [] else [csrfKey ++ '=' :: cv]
             | none => []) ++ [xsrfKey ++ '=' :: v]
          let roboticHeaders : RHeaders :=
            [("Content-Type".toList, "application/json".toList),
             ("X-Authorization".toList, c.personal_access_token),
             ("Cookie".toList, List.intercalate "; ".toList cookieParts),
             ("X-XSRF-TOKEN".toList, v)]
          (some roboticHeaders, { c with cached_headers := some roboticHeaders }, 1)

/-- The branch object of the files-endpoint JSON body; only the fields
the code reads are modelled.  commitHash is none when the key is absent
(reading it then raises KeyError). -/
structure BranchObj where
  commitHash : Option Str
  name : Option Str
  deriving DecidableEq, Repr

/-- Outcome of the GET on the files endpoint: a transport/HTTP-status
failure (RequestException from requests.get or raise_for_status), a JSON
decode failure (ValueError from response.json()), or a decoded body whose
branch key may be absent (none, so that data["branch"] raises KeyError). -/
inductive FilesResp
  | netFail
  | jsonDecodeError
  | ok (branch : Option BranchObj)
  deriving DecidableEq, Repr

/-- The method get_latest_commit_hash.  On a RequestException the cached
headers are cleared and the exception re-raised; on KeyError or
ValueError the exception is re-raised without clearing the cache. -/
def get_latest_commit_hash (c : Client) (bresp : BootstrapResult) (fresp : FilesResp) :
    PyResult (Option Str) × Client :=
  let g := get_robotic_headers c bresp
  match g.1 with
  | none => (.ret none, g.2.1)
  | some _ =>
    match fresp with
    | .netFail => (.raise .requestException, { g.2.1 with cached_headers := none })
    | .jsonDecodeError => (.raise .valueError, g.2.1)
    | .ok none => (.raise .keyError, g.2.1)
    | .ok (some b) =>
      match b.commitHash with
      | none => (.raise .keyError, g.2.1)
      | some ch => (.ret (some ch), g.2.1)

/-- The method get_branch_info.  One except clause catches
RequestException, KeyError and ValueError alike, clears the cached
headers and returns None. -/
def get_branch_info (c : Client) (bresp : BootstrapResult) (fresp : FilesResp) :
    PyResult (Option BranchObj) × Client :=
  let g := get_robotic_headers c bresp
  match g.1 with
  | none => (.ret none, g.2.1)
  | some _ =>
    match fresp with
    | .netFail => (.ret none, { g.2.1 with cached_headers := none })
    | .jsonDecodeError => (.ret none, { g.2.1 with cached_headers := none })
    | .ok none => (.ret none, { g.2.1 with cached_headers := none })
    | .ok (some b) => (.ret (some b), g.2.1)

/-- Outcome of the POST on the upload endpoint: requests.post or
raise_for_status raises a RequestException, or the upload succeeds. -/
inductive UploadResp
  | netFail
  | ok
  deriving DecidableEq, Repr

/-- One entry of the operations array of an upload payload. -/
structure Operation where
  encoding : Str
  op : Str
  path : Str
  value : Str
  deriving DecidableEq, Repr

/-- The JSON payload POSTed to the upload endpoint. -/
structure UploadPayload where
  authorName : Str
  authorEmail : Str
  commitMessage : Str
  operations : List Operation
  parentCommitHash : Str
  deriving DecidableEq, Repr

/-- Constructor of one replace operation of an upload payload. -/
def mkOperation (enc path value : Str) : Operation :=
  { encoding := enc, op := "replace".toList, path := path, value := value }

/-- Content-relevant facts about one local file: whether the trial read
of the first 1024 characters as UTF-8 succeeds, the full text content if
the whole file decodes as UTF-8 (none when text-mode reading would raise
UnicodeDecodeError), and the base64 encoding of the raw bytes. -/
structure FileData where
  prefixUtf8Ok : Bool
  text : Option Str
  b64 : Str
  deriving DecidableEq, Repr

/-- Environment of the local machine: the file system (none for a
missing path) and the mimetypes.guess_type MIME-type guess per path. -/
structure Env where
  fs : Str → Option FileData
  mimeOf : Str → Option Str

/-- The method _read_file_content on an existing file: binary mode reads
the raw bytes and base64-encodes them; text mode reads UTF-8 text and
raises UnicodeDecodeError when the file does not decode. -/
def read_file_content (fd : FileData) (isBin : Bool) : PyResult (Str × Str) :=
  if isBin then .ret (fd.b64, "base64".toList)
  else
    match fd.text with
    | some t => .ret (t, "utf-8".toList)
    | none => .raise .unicodeDecodeError

/-- The method _upload_file_content.  Returns the Python result, the
client state afterwards, and the list of upload requests sent (the
request is sent even when it then fails, and a transport failure clears
the cached headers before the exception is re-raised). -/
def upload_file_content (c : Client) (bresp : BootstrapResult) (uresp : UploadResp)
    (repositoryPath fileContent encodingType authorName authorEmail commitMessage
     parentCommitHash : Str) :
    PyResult Bool × Client × List UploadPayload :=
  let g := get_robotic_headers c bresp
  match g.1 with
  | none => (.ret false, g.2.1, [])
  | some _ =>
    let payload : UploadPayload :=
      { authorName := authorName, authorEmail := authorEmail,
        commitMessage := commitMessage,
        operations := [mkOperation encodingType repositoryPath fileContent],
        parentCommitHash := parentCommitHash }
    match uresp with
    | .netFail => (.raise .requestException, { g.2.1 with cached_headers := none }, [payload])
    | .ok => (.ret true, g.2.1, [payload])

/-- Tail of save_file after the existence check and parent-commit-hash
resolution: classify the file, read its content and upload it. -/
def save_file_rest (c : Client) (env : Env) (bresp : BootstrapResult) (uresp : UploadResp)
    (localFilePath : Str) (fd : FileData)
    (repositoryPath authorName authorEmail commitMessage parentCommitHash : Str)
    (forceBinary : Option Bool) :
    PyResult Bool × Client × List UploadPayload :=
  let isBin := isBinaryFile localFilePath forceBinary (env.mimeOf localFilePath) fd.prefixUtf8Ok
  match read_file_content fd isBin with
  | .raise e => (.raise e, c, [])
  | .ret contentEnc =>
    upload_file_content c bresp uresp repositoryPath contentEnc.1 contentEnc.2
      authorName authorEmail commitMessage parentCommitHash

/-- The method save_file.  Raises FileNotFoundError when the local path
is absent; defaults the repository path to the local basename; resolves
the parent commit hash through get_latest_commit_hash when not supplied,
returning False when that lookup yields None; then reads and uploads. -/
def save_file (c : Client) (env : Env) (bresp : BootstrapResult) (fresp : FilesResp)
    (uresp : UploadResp) (localFilePath authorName authorEmail commitMessage : Str)
    (repositoryPath : Option Str) (parentCommitHash : Option Str)
    (forceBinary : Option Bool) :
    PyResult Bool × Client × List UploadPayload :=
  match env.fs localFilePath with
  | none => (.raise .fileNotFoundError, c, [])
  | some fd =>
    let repoPath := repositoryPath.getD (basename localFilePath)
    match parentCommitHash with
    | some ph =>
      save_file_rest c env bresp uresp localFilePath fd repoPath
        authorName authorEmail commitMessage ph forceBinary
    | none =>
      match get_latest_commit_hash c bresp fresp with
      | (.raise e, c1) => (.raise e, c1, [])
      | (.ret none, c1) => (.ret false, c1, [])
      | (.ret (some ph), c1) =>
        save_file_rest c1 env bresp uresp localFilePath fd repoPath
          authorName authorEmail commitMessage ph forceBinary

/-- One requested entry of a save_multiple_files batch. -/
structure FileOp where
  local_path : Str
  repo_path : Option Str
  force_binary : Option Bool
  deriving DecidableEq, Repr

/-- The batch-preparation loop of save_multiple_files: requested
operations whose local file is missing are skipped (logged, not fatal);
the others are classified, read and turned into upload operations in
order.  An exception raised by a read aborts the loop. -/
def buildOperations (env : Env) : List FileOp → PyResult (List Operation)
  | [] => .ret []
  | fop :: rest =>
    match env.fs fop.local_path with
    | none => buildOperations env rest
    | some fd =>
      let isBin := isBinaryFile fop.local_path fop.force_binary
        (env.mimeOf fop.local_path) fd.prefixUtf8Ok
      match read_file_content fd isBin with
      | .raise e => .raise e
      | .ret contentEnc =>
        match buildOperations env rest with
        | .raise e => .raise e
        | .ret ops =>
          .ret (mkOperation contentEnc.2 (fop.repo_path.getD (basename fop.local_path))
            contentEnc.1 :: ops)

/-- Tail of save_multiple_files after parent-commit-hash resolution:
obtain session headers, build the surviving operations, fail fast with
False when none remain, otherwise send exactly one upload request. -/
def save_multiple_files_rest (c : Client) (env : Env) (bresp : BootstrapResult)
    (uresp : UploadResp) (fileOperations : List FileOp)
    (authorName authorEmail commitMessage parentCommitHash : Str) :
    PyResult Bool × Client × List UploadPayload :=
  let g := get_robotic_headers c bresp
  match g.1 with
  | none => (.ret false, g.2.1, [])
  | some _ =>
    match buildOperations env fileOperations with
    | .raise e => (.raise e, g.2.1, [])
    | .ret ops =>
      if ops = [] then (.ret false, g.2.1, [])
      else
        let payload : UploadPayload :=
          { authorName := authorName, authorEmail := authorEmail,
            commitMessage := commitMessage, operations := ops,
            parentCommitHash := parentCommitHash }
        match uresp with
        | .netFail => (.raise .requestException, { g.2.1 with cached_headers := none }, [payload])
        | .ok => (.ret true, g.2.1, [payload])

/-- The method save_multiple_files: resolve the parent commit hash once
for the whole batch (returning False when the lookup yields None), then
proceed with the batch tail. -/
def save_multiple_files (c : Client) (env : Env) (bresp : BootstrapResult)
    (fresp : FilesResp) (uresp : UploadResp) (fileOperations : List FileOp)
    (authorName authorEmail commitMessage : Str) (parentCommitHash : Option Str) :
    PyResult Bool × Client × List UploadPayload :=
  match parentCommitHash with
  | some ph =>
    save_multiple_files_rest c env bresp uresp fileOperations
      authorName authorEmail commitMessage ph
  | none =>
    match get_latest_commit_hash c bresp fresp with
    | (.raise e, c1) => (.raise e, c1, [])
    | (.ret none, c1) => (.ret false, c1, [])
    | (.ret (some ph), c1) =>
      save_multiple_files_rest c1 env bresp uresp fileOperations
        authorName authorEmail commitMessage ph

/-! Helper lemmas about the character-level and list-level utilities. -/

theorem toNat_ofNat_valid (n : Nat) (h : n.isValidChar) : (Char.ofNat n).toNat = n := by
  unfold Char.ofNat
  rw [dif_pos h]
  rfl

theorem pyLowerChar_eq_low_iff (c t : Char) (ht : t.toNat < 65) :
    pyLowerChar c = t ↔ c = t := by
  unfold pyLowerChar
  split
  · next h =>
    constructor
    · intro he
      have h2 : (Char.ofNat (c.toNat + 32)).toNat = c.toNat + 32 :=
        toNat_ofNat_valid _ (Or.inl (by omega))
      rw [he] at h2
      omega
    · intro he
      subst he
      exact absurd h.1 (by omega)
  · next _ => exact Iff.rfl

theorem pyLowerChar_idem (c : Char) : pyLowerChar (pyLowerChar c) = pyLowerChar c := by
  by_cases h : 65 ≤ c.toNat ∧ c.toNat ≤ 90
  · have h1 : pyLowerChar c = Char.ofNat (c.toNat + 32) := by
      unfold pyLowerChar
      rw [if_pos h]
    have h2 : (Char.ofNat (c.toNat + 32)).toNat = c.toNat + 32 :=
      toNat_ofNat_valid _ (Or.inl (by omega))
    rw [h1]
    unfold pyLowerChar
    rw [if_neg (by rw [h2]; omega)]
  · have h1 : pyLowerChar c = c := by
      unfold pyLowerChar
      rw [if_neg h]
    rw [h1, h1]

theorem pyLower_idem (l : Str) : pyLower (pyLower l) = pyLower l := by
  unfold pyLower
  rw [List.map_map]
  exact List.map_congr_left (fun c _ => pyLowerChar_idem c)

theorem contains_pyLower_low (l : Str) (t : Char) (ht : t.toNat < 65) :
    (pyLower l).contains t = l.contains t := by
  unfold pyLower
  induction l with
  | nil => rfl
  | cons c cs ih =>
    simp only [List.map_cons, List.contains_cons, ih]
    congr 1
    rw [Bool.eq_iff_iff]
    simp only [beq_iff_eq]
    have hiff := pyLowerChar_eq_low_iff c t ht
    constructor
    · intro h
      exact (hiff.1 h.symm).symm
    · intro h
      exact (hiff.2 h.symm).symm

theorem pyLower_reverse (l : Str) : (pyLower l).reverse = pyLower l.reverse := by
  unfold pyLower
  rw [List.map_reverse]

theorem pyLower_cons (c : Char) (l : Str) :
    pyLower (c :: l) = pyLowerChar c :: pyLower l := rfl

theorem takeWhile_ne_pyLower (t : Char) (ht : t.toNat < 65) (l : Str) :
    (pyLower l).takeWhile (fun c => c ≠ t) = pyLower (l.takeWhile (fun c => c ≠ t)) := by
  unfold pyLower
  induction l with
  | nil => rfl
  | cons c cs ih =>
    have hpc := pyLowerChar_eq_low_iff c t ht
    rw [List.map_cons, List.takeWhile_cons, List.takeWhile_cons]
    by_cases hc : c = t
    · have h3 : pyLowerChar c = t := hpc.2 hc
      rw [if_neg (by simp [h3]), if_neg (by simp [hc])]
      rfl
    · have h2 : ¬ pyLowerChar c = t := fun he => hc (hpc.1 he)
      rw [if_pos (by simp [h2]), if_pos (by simp [hc]), List.map_cons, ih]

theorem dropWhile_eq_pyLower (t : Char) (ht : t.toNat < 65) (l : Str) :
    (pyLower l).dropWhile (fun c => c = t) = pyLower (l.dropWhile (fun c => c = t)) := by
  unfold pyLower
  induction l with
  | nil => rfl
  | cons c cs ih =>
    have hpc := pyLowerChar_eq_low_iff c t ht
    rw [List.map_cons, List.dropWhile_cons, List.dropWhile_cons]
    by_cases hc : c = t
    · have h3 : pyLowerChar c = t := hpc.2 hc
      rw [if_pos (by simp [h3]), if_pos (by simp [hc])]
      exact ih
    · have h2 : ¬ pyLowerChar c = t := fun he => hc (hpc.1 he)
      rw [if_neg (by simp [h2]), if_neg (by simp [hc]), List.map_cons]

theorem basename_pyLower (p : Str) : basename (pyLower p) = pyLower (basename p) := by
  unfold basename
  rw [pyLower_reverse p, takeWhile_ne_pyLower '/' (by decide), pyLower_reverse]

theorem extOf_pyLower (p : Str) : extOf (pyLower p) = pyLower (extOf p) := by
  unfold extOf
  rw [basename_pyLower, dropWhile_eq_pyLower '.' (by decide),
    contains_pyLower_low _ '.' (by decide)]
  by_cases hr : ((basename p).dropWhile (fun c => c = '.')).contains '.'
  · rw [if_pos hr, if_pos hr]
    rw [pyLower_cons]
    have hd : pyLowerChar '.' = '.' := by decide
    rw [hd]
    congr 1
    rw [pyLower_reverse, takeWhile_ne_pyLower '.' (by decide), pyLower_reverse]
  · rw [if_neg hr, if_neg hr]
    rfl

theorem splitOnC_not_mem (sep : Char) (l : Str) (h : sep ∉ l) : splitOnC sep l = [l] := by
  induction l with
  | nil => rfl
  | cons c cs ih =>
    have hc : ¬ c = sep := fun he => h (he ▸ List.mem_cons_self c cs)
    have hcs : sep ∉ cs := fun hm => h (List.mem_cons_of_mem c hm)
    unfold splitOnC
    rw [if_neg hc, ih hcs]

theorem dropWhile_eq_self_of_forall (p : Char → Bool) (l : Str)
    (h : ∀ c ∈ l, p c = false) : l.dropWhile p = l := by
  cases l with
  | nil => rfl
  | cons c cs =>
    rw [List.dropWhile_cons, if_neg]
    rw [h c (List.mem_cons_self c cs)]
    simp

theorem pyStrip_eq_self (l : Str) (h : ∀ c ∈ l, c.isWhitespace = false) :
    pyStrip l = l := by
  unfold pyStrip
  rw [dropWhile_eq_self_of_forall _ _ h,
    dropWhile_eq_self_of_forall _ _ (fun c hc => h c (List.mem_reverse.mp hc)),
    List.reverse_reverse]

theorem splitFirst_no_sep_append (sep : Char) (n v : Str) (h : sep ∉ n) :
    splitFirst sep (n ++ sep :: v) = (n, some v) := by
  induction n with
  | nil =>
    unfold splitFirst
    rw [List.nil_append]
    simp
  | cons c cs ih =>
    have hc : ¬ c = sep := fun he => h (he ▸ List.mem_cons_self c cs)
    have hcs : sep ∉ cs := fun hm => h (List.mem_cons_of_mem c hm)
    simp only [List.cons_append, splitFirst, List.append_eq]
    rw [if_neg hc, ih hcs]

theorem buildOperations_filter (env : Env) (l : List FileOp) :
    buildOperations env l =
      buildOperations env (l.filter (fun f => (env.fs f.local_path).isSome)) := by
  induction l with
  | nil => rfl
  | cons fop rest ih =>
    cases hfs : env.fs fop.local_path with
    | none =>
      have hcond : ((env.fs fop.local_path).isSome) = false := by rw [hfs]; rfl
      rw [List.filter_cons_of_neg (by simp [hcond])]
      show buildOperations env (fop :: rest) = _
      simp only [buildOperations, hfs]
      exact ih
    | some fd =>
      have hcond : ((env.fs fop.local_path).isSome) = true := by rw [hfs]; rfl
      rw [List.filter_cons_of_pos (by simp [hcond])]
      show buildOperations env (fop :: rest) = buildOperations env (fop :: _)
      simp only [buildOperations, hfs]
      rw [ih]

theorem buildOperations_length (env : Env) (l : List FileOp) (ops : List Operation)
    (h : buildOperations env l = .ret ops) :
    ops.length = (l.filter (fun f => (env.fs f.local_path).isSome)).length := by
  induction l generalizing ops with
  | nil =>
    simp only [buildOperations] at h
    have : ([] : List Operation) = ops := by injection h
    subst this
    rfl
  | cons fop rest ih =>
    cases hfs : env.fs fop.local_path with
    | none =>
      simp only [buildOperations, hfs] at h
      rw [List.filter_cons_of_neg (by simp [hfs])]
      exact ih ops h
    | some fd =>
      cases hrc : read_file_content fd (isBinaryFile fop.local_path fop.force_binary
          (env.mimeOf fop.local_path) fd.prefixUtf8Ok) with
      | raise e =>
        have hcomp : buildOperations env (fop :: rest) = .raise e := by
          simp only [buildOperations, hfs, hrc]
        rw [hcomp] at h
        exact (PyResult.noConfusion h)
      | ret contentEnc =>
        cases hb : buildOperations env rest with
        | raise e =>
          have hcomp : buildOperations env (fop :: rest) = .raise e := by
            simp only [buildOperations, hfs, hrc, hb]
          rw [hcomp] at h
          exact (PyResult.noConfusion h)
        | ret ops2 =>
          have hcomp : buildOperations env (fop :: rest) =
              .ret (mkOperation contentEnc.2 (fop.repo_path.getD (basename fop.local_path))
                contentEnc.1 :: ops2) := by
            simp only [buildOperations, hfs, hrc, hb]
          rw [hcomp] at h
          injection h with hops
          rw [← hops]
          rw [List.filter_cons_of_pos (by simp [hfs])]
          simp only [List.length_cons, ih ops2 hb]

theorem dictGet_dictSet (d : Dict) (k v : Str) : dictGet (dictSet d k v) k = some v := by
  induction d with
  | nil =>
    unfold dictSet dictGet
    rw [if_pos rfl]
  | cons p rest ih =>
    by_cases hk : p.1 = k
    · unfold dictSet
      rw [if_pos hk]
      unfold dictGet
      rw [if_pos rfl]
    · unfold dictSet
      rw [if_neg hk]
      unfold dictGet
      rw [if_neg hk]
      exact ih

theorem get_robotic_headers_bootstrap_count (c : Client) (resp : BootstrapResult)
    (hc : c.cached_headers = none) : (get_robotic_headers c resp).2.2 = 1 := by
  simp only [get_robotic_headers, hc]
  cases resp with
  | netFail => rfl
  | success setCookies =>
    cases hx : dictGet (parseCookies setCookies) xsrfKey with
    | none => simp [hx]
    | some v =>
      by_cases hv : v = []
      · simp [hx, hv]
      · simp [hx, hv]

theorem contains_of_mem {α : Type} [DecidableEq α] {l : List α} {a : α} (h : a ∈ l) :
    l.contains a = true := by
  induction l with
  | nil => cases h
  | cons b t ih =>
    rw [List.contains_cons]
    rcases List.mem_cons.mp h with h1 | h2
    · subst h1
      simp
    · rw [ih h2]
      simp

theorem contains_of_mem_exts {l : List Str} {a : Str} (h : a ∈ l) :
    l.contains a = true := by
  induction l with
  | nil => cases h
  | cons b t ih =>
    rw [List.contains_cons]
    rcases List.mem_cons.mp h with h1 | h2
    · subst h1
      simp
    · rw [ih h2]
      simp

theorem contains_append_cons_self (n v : Str) (c : Char) :
    (n ++ c :: v).contains c = true :=
  contains_of_mem (by simp)

theorem intercalate_one (sep x : Str) : List.intercalate sep [x] = x := by
  simp [List.intercalate]

theorem intercalate_two (sep x y : Str) :
    List.intercalate sep [x, y] = x ++ sep ++ y := by
  simp [List.intercalate, List.intersperse]

/-! Claim theorems. -/

/-- Example client and header fixtures used by the concrete witnesses. -/
def hdrs0 : RHeaders :=
  [("Content-Type".toList, "application/json".toList),
   ("X-Authorization".toList, "tok".toList),
   ("Cookie".toList, "PACE-XSRF-TOKEN=xyz".toList),
   ("X-XSRF-TOKEN".toList, "xyz".toList)]

def clientValid : Client :=
  { personal_access_token := "tok".toList, project_id := "proj".toList,
    job_id := "job".toList, cached_headers := some hdrs0 }

def clientEmpty : Client :=
  { personal_access_token := "tok".toList, project_id := "proj".toList,
    job_id := "job".toList, cached_headers := none }

/-- C1: while session headers are cached (Valid), _get_robotic_headers returns
the cached header set and performs zero network calls; after
clear_headers_cache, or after a session-invalidating transport failure on a
dependent call (get_latest_commit_hash), the next _get_robotic_headers call
performs exactly one bootstrap network request. -/
theorem session_header_cache_behavior (c : Client) (h : RHeaders)
    (resp resp2 : BootstrapResult) (hc : c.cached_headers = some h) :
    get_robotic_headers c resp = (some h, c, 0)
    ∧ (get_robotic_headers (clear_headers_cache c) resp).2.2 = 1
    ∧ (get_robotic_headers (get_latest_commit_hash c resp2 .netFail).2 resp).2.2 = 1 := by
  refine ⟨?_, ?_, ?_⟩
  · simp only [get_robotic_headers, hc]
  · exact get_robotic_headers_bootstrap_count _ _ rfl
  · apply get_robotic_headers_bootstrap_count
    simp only [get_latest_commit_hash, get_robotic_headers, hc]

/-- Witness for C1 at a concrete Valid client. -/
theorem session_header_cache_behavior_witness :
    get_robotic_headers clientValid .netFail = (some hdrs0, clientValid, 0)
    ∧ (get_robotic_headers (clear_headers_cache clientValid) .netFail).2.2 = 1
    ∧ (get_robotic_headers
        (get_latest_commit_hash clientValid .netFail .netFail).2 .netFail).2.2 = 1 :=
  session_header_cache_behavior clientValid hdrs0 .netFail .netFail rfl

/-- C2: when the parsed bootstrap cookies do not contain PACE-XSRF-TOKEN,
_get_robotic_headers returns None, caches nothing, and the client state is
unchanged (still Empty); the one bootstrap request was performed. -/
theorem missing_xsrf_token_returns_none (c : Client) (setCookies : List Str)
    (hc : c.cached_headers = none)
    (hx : dictGet (parseCookies setCookies) xsrfKey = none) :
    get_robotic_headers c (.success setCookies) = (none, c, 1) := by
  simp only [get_robotic_headers, hc, hx]

/-- Witness for C2: a bootstrap response whose only cookie is unrelated. -/
theorem missing_xsrf_token_returns_none_witness :
    get_robotic_headers clientEmpty (.success ["a=1; Path=/".toList])
      = (none, clientEmpty, 1) :=
  missing_xsrf_token_returns_none clientEmpty ["a=1; Path=/".toList] rfl (by decide)

/-- C3 counterexample: the claim quantifies over every token value v, but
Python truthiness rejects an empty one.  Here the parsed cookies do contain
PACE-XSRF-TOKEN (with value the empty string), yet _get_robotic_headers
returns None instead of the claimed synthesized header set. -/
theorem header_synthesis_counterexample :
    dictGet (parseCookies ["PACE-XSRF-TOKEN=".toList]) xsrfKey = some []
    ∧ (get_robotic_headers clientEmpty (.success ["PACE-XSRF-TOKEN=".toList])).1 = none := by
  constructor
  · decide
  · decide

/-- C3 (amended): for every successful bootstrap whose parsed cookies
contain PACE-XSRF-TOKEN with a nonempty value v, the synthesized header set
is exactly Content-Type: application/json, X-Authorization: the
construction-time access token, Cookie: the _pace-csrf segment (omitted
when _pace-csrf is absent or empty) followed by PACE-XSRF-TOKEN=v, and
X-XSRF-TOKEN: v; the set is cached as returned. -/
theorem header_synthesis (c : Client) (setCookies : List Str) (v : Str)
    (hc : c.cached_headers = none)
    (hx : dictGet (parseCookies setCookies) xsrfKey = some v) (hv : v ≠ []) :
    (get_robotic_headers c (.success setCookies)).1 =
      some [("Content-Type".toList, "application/json".toList),
            ("X-Authorization".toList, c.personal_access_token),
            ("Cookie".toList,
              match dictGet (parseCookies setCookies) csrfKey with
              | some cv =>
                if cv = [] then xsrfKey ++ '=' :: v
                else (csrfKey ++ '=' :: cv) ++ "; ".toList ++ (xsrfKey ++ '=' :: v)
              | none => xsrfKey ++ '=' :: v),
            ("X-XSRF-TOKEN".toList, v)]
    ∧ (get_robotic_headers c (.success setCookies)).2.1.cached_headers =
        (get_robotic_headers c (.success setCookies)).1 := by
  cases hcg : dictGet (parseCookies setCookies) csrfKey with
  | none =>
    simp [get_robotic_headers, hc, hx, hcg, hv, intercalate_one]
  | some cv =>
    by_cases hcv : cv = []
    · subst hcv
      simp [get_robotic_headers, hc, hx, hcg, hv, intercalate_one]
    · simp [get_robotic_headers, hc, hx, hcg, hv, hcv, intercalate_two,
        List.append_assoc]

/-- Witness for the amended C3 at a bootstrap response carrying both
cookies with nonempty values. -/
theorem header_synthesis_witness :
    (get_robotic_headers clientEmpty
        (.success ["_pace-csrf=abc".toList, "PACE-XSRF-TOKEN=xyz".toList])).1 =
      some [("Content-Type".toList, "application/json".toList),
            ("X-Authorization".toList, clientEmpty.personal_access_token),
            ("Cookie".toList,
              match dictGet (parseCookies
                  ["_pace-csrf=abc".toList, "PACE-XSRF-TOKEN=xyz".toList]) csrfKey with
              | some cv =>
                if cv = [] then xsrfKey ++ '=' :: "xyz".toList
                else (csrfKey ++ '=' :: cv) ++ "; ".toList ++ (xsrfKey ++ '=' :: "xyz".toList)
              | none => xsrfKey ++ '=' :: "xyz".toList),
            ("X-XSRF-TOKEN".toList, "xyz".toList)]
    ∧ (get_robotic_headers clientEmpty
        (.success ["_pace-csrf=abc".toList, "PACE-XSRF-TOKEN=xyz".toList])).2.1.cached_headers =
      (get_robotic_headers clientEmpty
        (.success ["_pace-csrf=abc".toList, "PACE-XSRF-TOKEN=xyz".toList])).1 :=
  header_synthesis clientEmpty ["_pace-csrf=abc".toList, "PACE-XSRF-TOKEN=xyz".toList]
    "xyz".toList rfl (by decide) (by decide)

/-- A small UTF-8 text file used by concrete witnesses. -/
def fdText : FileData :=
  { prefixUtf8Ok := true, text := some "hello".toList, b64 := "aGVsbG8=".toList }

/-- A local environment for the witnesses: a.txt and c.txt exist, b.txt is
missing, and no MIME type is guessed for any path. -/
def envA : Env :=
  { fs := fun p =>
      if p = "a.txt".toList then some fdText
      else if p = "c.txt".toList then some fdText
      else none,
    mimeOf := fun _ => none }

def fopA : FileOp :=
  { local_path := "a.txt".toList, repo_path := none, force_binary := none }

def fopB : FileOp :=
  { local_path := "b.txt".toList, repo_path := none, force_binary := none }

def fopC : FileOp :=
  { local_path := "c.txt".toList, repo_path := some "dir/c.robot".toList,
    force_binary := none }

/-- C4 counterexample: a response-parse failure (missing branch field in the
JSON body) in get_latest_commit_hash propagates the KeyError while the
cached session headers survive untouched, contradicting the claim that
every session-attributable failure clears them. -/
theorem invalidation_counterexample :
    (get_latest_commit_hash clientValid .netFail (.ok none)).1 = .raise .keyError
    ∧ (get_latest_commit_hash clientValid .netFail (.ok none)).2.cached_headers
        = some hdrs0 := by
  constructor
  · decide
  · decide

/-- C4 (amended): transport/HTTP-status failures clear the cached session
headers in get_latest_commit_hash, get_branch_info, _upload_file_content
and save_multiple_files before the error is propagated or converted to a
soft failure; response-parse failures (JSON decode error or missing field)
also clear them in get_branch_info, but in get_latest_commit_hash they
propagate the exception without clearing the cache (the upload paths have
no parse step). -/
theorem invalidation_on_failure (c : Client) (env : Env) (h : RHeaders)
    (bresp : BootstrapResult) (fresp : FilesResp) (fileOps : List FileOp)
    (ops : List Operation) (rp ct et an ae cm ph : Str)
    (hc : c.cached_headers = some h)
    (hops : buildOperations env fileOps = .ret ops) (hne : ops ≠ []) :
    ((get_latest_commit_hash c bresp .netFail).2.cached_headers = none
      ∧ (get_latest_commit_hash c bresp .netFail).1 = .raise .requestException)
    ∧ ((get_latest_commit_hash c bresp .jsonDecodeError).2.cached_headers = some h
      ∧ (get_latest_commit_hash c bresp .jsonDecodeError).1 = .raise .valueError)
    ∧ ((get_latest_commit_hash c bresp (.ok none)).2.cached_headers = some h
      ∧ (get_latest_commit_hash c bresp (.ok none)).1 = .raise .keyError)
    ∧ (get_branch_info c bresp .netFail).2.cached_headers = none
    ∧ (get_branch_info c bresp .jsonDecodeError).2.cached_headers = none
    ∧ (get_branch_info c bresp (.ok none)).2.cached_headers = none
    ∧ (upload_file_content c bresp .netFail rp ct et an ae cm ph).2.1.cached_headers = none
    ∧ (save_multiple_files c env bresp fresp .netFail fileOps an ae cm
        (some ph)).2.1.cached_headers = none := by
  refine ⟨⟨?_, ?_⟩, ⟨?_, ?_⟩, ⟨?_, ?_⟩, ?_, ?_, ?_, ?_, ?_⟩
  · simp [get_latest_commit_hash, get_robotic_headers, hc]
  · simp [get_latest_commit_hash, get_robotic_headers, hc]
  · simp [get_latest_commit_hash, get_robotic_headers, hc]
  · simp [get_latest_commit_hash, get_robotic_headers, hc]
  · simp [get_latest_commit_hash, get_robotic_headers, hc]
  · simp [get_latest_commit_hash, get_robotic_headers, hc]
  · simp [get_branch_info, get_robotic_headers, hc]
  · simp [get_branch_info, get_robotic_headers, hc]
  · simp [get_branch_info, get_robotic_headers, hc]
  · simp [upload_file_content, get_robotic_headers, hc]
  · simp only [save_multiple_files, save_multiple_files_rest, get_robotic_headers, hc, hops]
    rw [if_neg hne]

/-- Witness for the amended C4: the batch-upload conjunct at a concrete
client with cached headers, one existing file and a failing upload. -/
theorem invalidation_on_failure_witness :
    (save_multiple_files clientValid envA .netFail (.ok none) .netFail [fopA]
        "an".toList "ae".toList "cm".toList (some "ph".toList)).2.1.cached_headers
      = none :=
  (invalidation_on_failure clientValid envA hdrs0 .netFail (.ok none) [fopA]
    [mkOperation "utf-8".toList "a.txt".toList "hello".toList]
    "rp".toList "ct".toList "et".toList "an".toList "ae".toList "cm".toList "ph".toList
    rfl (by decide) (by decide)).2.2.2.2.2.2.2

/-- C5: the cookie parser splits raw headers on commas first, keeps only
the segment before the first semicolon of each piece as name=value, splits
that on the first equals sign only so that values containing further
equals signs are preserved intact, and later entries overwrite earlier
ones for the same name; in particular the spec example parses to exactly
a:1, b:2, c:3. -/
theorem cookie_parsing_behavior (n v : Str)
    (hn : '=' ∉ n)
    (hnc : ',' ∉ n ++ '=' :: v) (hns : ';' ∉ n ++ '=' :: v)
    (hw : ∀ ch ∈ n ++ '=' :: v, ch.isWhitespace = false) :
    parseCookies ["a=1; Path=/".toList, "b=2; Secure, c=3".toList] =
      [("a".toList, "1".toList), ("b".toList, "2".toList), ("c".toList, "3".toList)]
    ∧ parseCookies [n ++ '=' :: v] = [(n, v)]
    ∧ (∀ d k w, dictGet (dictSet d k w) k = some w)
    ∧ parseCookies ["x=1".toList, "x=2".toList] = [("x".toList, "2".toList)] := by
  refine ⟨by decide, ?_, fun d k w => dictGet_dictSet d k w, by decide⟩
  have hne : ¬ ((n ++ '=' :: v) = []) := by simp
  have hwn : ∀ ch ∈ n, ch.isWhitespace = false :=
    fun ch hch => hw ch (List.mem_append_left _ hch)
  have hwv : ∀ ch ∈ v, ch.isWhitespace = false :=
    fun ch hch => hw ch (List.mem_append_right _ (List.mem_cons_of_mem _ hch))
  simp only [parseCookies, List.foldl_cons, List.foldl_nil]
  rw [if_neg hne]
  simp only [parseSetCookieHeaderInto]
  rw [splitOnC_not_mem ',' _ hnc]
  simp only [List.foldl_cons, List.foldl_nil]
  rw [pyStrip_eq_self _ hw]
  rw [if_pos (contains_append_cons_self n v '=')]
  rw [splitOnC_not_mem ';' _ hns]
  simp only [List.headD_cons]
  rw [if_pos (contains_append_cons_self n v '=')]
  rw [splitFirst_no_sep_append '=' n v hn]
  simp only [Option.getD_some]
  rw [pyStrip_eq_self n hwn, pyStrip_eq_self v hwv]
  rfl

/-- Witness for C5 at the spec example of a value containing an equals
sign: the full value after the first equals sign is preserved. -/
theorem cookie_parsing_behavior_witness :
    parseCookies ["token=ey.J=x".toList] = [("token".toList, "ey.J=x".toList)] :=
  (cookie_parsing_behavior "token".toList "ey.J=x".toList (by decide) (by decide)
    (by decide) (by decide)).2.1

/-- The batch used by the C6 witness: three requested operations, the
middle one referring to a missing local file. -/
def fileOps3 : List FileOp := [fopA, fopB, fopC]

/-- C6: in save_multiple_files, requested operations whose local file is
missing are skipped (building the payload from the surviving requests
only); when zero operations survive the filtering the call returns False
and sends no upload request; otherwise exactly one upload request is sent
and its operations array has one entry per surviving request. -/
theorem batch_upload_filtering (c : Client) (env : Env) (bresp : BootstrapResult)
    (fresp : FilesResp) (uresp : UploadResp) (fileOps : List FileOp)
    (an ae cm ph : Str) (h : RHeaders) (ops : List Operation)
    (hhdr : (get_robotic_headers c bresp).1 = some h) :
    buildOperations env fileOps =
      buildOperations env (fileOps.filter (fun f => (env.fs f.local_path).isSome))
    ∧ (fileOps.filter (fun f => (env.fs f.local_path).isSome) = [] →
        (save_multiple_files c env bresp fresp uresp fileOps an ae cm (some ph)).1
          = .ret false
        ∧ (save_multiple_files c env bresp fresp uresp fileOps an ae cm (some ph)).2.2
          = [])
    ∧ (buildOperations env fileOps = .ret ops → ops ≠ [] →
        (save_multiple_files c env bresp fresp uresp fileOps an ae cm (some ph)).2.2 =
          [{ authorName := an, authorEmail := ae, commitMessage := cm,
             operations := ops, parentCommitHash := ph }]
        ∧ ops.length
          = (fileOps.filter (fun f => (env.fs f.local_path).isSome)).length) := by
  refine ⟨buildOperations_filter env fileOps, ?_, ?_⟩
  · intro hf
    have hb : buildOperations env fileOps = .ret [] := by
      rw [buildOperations_filter env fileOps, hf]
      rfl
    constructor
    · simp [save_multiple_files, save_multiple_files_rest, hhdr, hb]
    · simp [save_multiple_files, save_multiple_files_rest, hhdr, hb]
  · intro hb hne
    refine ⟨?_, buildOperations_length env fileOps ops hb⟩
    simp only [save_multiple_files, save_multiple_files_rest, hhdr, hb]
    rw [if_neg hne]
    cases uresp with
    | netFail => rfl
    | ok => rfl

/-- Witness for C6: with one missing file among three, exactly one upload
request containing the two surviving operations is sent. -/
theorem batch_upload_filtering_witness :
    (save_multiple_files clientValid envA .netFail (.ok none) .ok fileOps3
        "an".toList "ae".toList "cm".toList (some "ph".toList)).2.2 =
      [{ authorName := "an".toList, authorEmail := "ae".toList,
         commitMessage := "cm".toList,
         operations := [mkOperation "utf-8".toList "a.txt".toList "hello".toList,
                        mkOperation "utf-8".toList "dir/c.robot".toList "hello".toList],
         parentCommitHash := "ph".toList }]
    ∧ ([mkOperation "utf-8".toList "a.txt".toList "hello".toList,
        mkOperation "utf-8".toList "dir/c.robot".toList "hello".toList] :
          List Operation).length
      = (fileOps3.filter (fun f => (envA.fs f.local_path).isSome)).length :=
  (batch_upload_filtering clientValid envA .netFail (.ok none) .ok fileOps3
    "an".toList "ae".toList "cm".toList "ph".toList hdrs0
    [mkOperation "utf-8".toList "a.txt".toList "hello".toList,
     mkOperation "utf-8".toList "dir/c.robot".toList "hello".toList]
    rfl).2.2 (by decide) (by decide)

/-- C7: when save_file is called without a parent commit hash and the
commit-hash lookup yields nothing (None), it returns False and sends zero
upload requests. -/
theorem save_file_aborts_without_commit_hash (c : Client) (env : Env)
    (bresp : BootstrapResult) (fresp : FilesResp) (uresp : UploadResp)
    (lp an ae cm : Str) (rp : Option Str) (fb : Option Bool) (fd : FileData)
    (hfs : env.fs lp = some fd)
    (hlookup : (get_latest_commit_hash c bresp fresp).1 = .ret none) :
    (save_file c env bresp fresp uresp lp an ae cm rp none fb).1 = .ret false
    ∧ (save_file c env bresp fresp uresp lp an ae cm rp none fb).2.2 = [] := by
  have hpair : get_latest_commit_hash c bresp fresp =
      (.ret none, (get_latest_commit_hash c bresp fresp).2) := by
    rw [← hlookup]
  constructor
  · simp only [save_file, hfs]
    rw [hpair]
  · simp only [save_file, hfs]
    rw [hpair]

/-- Witness for C7: a client with no cached headers and a failing
bootstrap, so the commit-hash lookup yields None. -/
theorem save_file_aborts_without_commit_hash_witness :
    (save_file clientEmpty envA .netFail (.ok none) .ok "a.txt".toList
        "an".toList "ae".toList "cm".toList none none none).1 = .ret false
    ∧ (save_file clientEmpty envA .netFail (.ok none) .ok "a.txt".toList
        "an".toList "ae".toList "cm".toList none none none).2.2 = [] :=
  save_file_aborts_without_commit_hash clientEmpty envA .netFail (.ok none) .ok
    "a.txt".toList "an".toList "ae".toList "cm".toList none none fdText
    (by decide) (by decide)

/-- C8: for every file path whose extension is in the fixed known-binary
extension set, _is_binary_file returns true regardless of the file's
content (MIME guess and trial-read outcome are arbitrary) unless the
override argument is given; and an explicit override is always returned
unchanged. -/
theorem binary_extension_detection (p : Str) (m : Option Str) (ok : Bool) (b : Bool)
    (hext : extOf p ∈ BINARY_EXTENSIONS) :
    isBinaryFile p (some b) m ok = b
    ∧ isBinaryFile p none m ok = true := by
  constructor
  · rfl
  · have h2 : pyLower (extOf p) = extOf p := by
      have hall : ∀ e ∈ BINARY_EXTENSIONS, pyLower e = e := by decide
      exact hall _ hext
    have h3 : extOf (pyLower p) ∈ BINARY_EXTENSIONS := by
      rw [extOf_pyLower p, h2]
      exact hext
    simp only [isBinaryFile]
    rw [contains_of_mem_exts h3]
    rfl

/-- Witness for C8 at a path with the .xlsx extension. -/
theorem binary_extension_detection_witness :
    isBinaryFile "report.xlsx".toList (some false) none true = false
    ∧ isBinaryFile "report.xlsx".toList none none true = true :=
  binary_extension_detection "report.xlsx".toList none true false (by decide)

/-- C9: for a path without a recognized binary extension and no override,
_is_binary_file returns true when the MIME-type guess yields a type that
is neither text/* nor exactly application/json; otherwise (no guess, or a
text/* or application/json guess) it returns true exactly when the trial
UTF-8 decode of the file prefix fails. -/
theorem binary_detection_fallback (p : Str) (ok : Bool)
    (hext : BINARY_EXTENSIONS.contains (extOf (pyLower p)) = false) :
    (∀ mt, ("text/".toList.isPrefixOf mt) = false → mt ≠ "application/json".toList →
      isBinaryFile p none (some mt) ok = true)
    ∧ isBinaryFile p none none ok = !ok
    ∧ (∀ mt, ("text/".toList.isPrefixOf mt) = true ∨ mt = "application/json".toList →
      isBinaryFile p none (some mt) ok = !ok) := by
  have hcond : ¬ (BINARY_EXTENSIONS.contains (extOf (pyLower p)) = true) := by
    rw [hext]
    simp
  refine ⟨?_, ?_, ?_⟩
  · intro mt h1 h2
    simp only [isBinaryFile]
    rw [if_neg hcond, if_pos ⟨by rw [h1]; simp, h2⟩]
  · simp only [isBinaryFile]
    rw [if_neg hcond]
  · intro mt hm
    simp only [isBinaryFile]
    rcases hm with hm | hm
    · rw [if_neg hcond, if_neg (fun hcon => hcon.1 hm)]
    · rw [if_neg hcond, if_neg (fun hcon => hcon.2 hm)]

/-- Witness for C9 at a markdown path: a non-text MIME guess forces
binary, no guess falls back to the trial decode. -/
theorem binary_detection_fallback_witness :
    isBinaryFile "notes.md".toList none (some "application/pdf".toList) true = true
    ∧ isBinaryFile "notes.md".toList none none false = !false :=
  ⟨(binary_detection_fallback "notes.md".toList true (by decide)).1
      "application/pdf".toList (by decide) (by decide),
   (binary_detection_fallback "notes.md".toList false (by decide)).2.1⟩

/-- C10: extension matching in _is_binary_file is case-insensitive: the
whole path is lowercased before the extension is compared, so the
classification of any path equals that of its lowercased form, and a path
with an upper-case binary extension such as REPORT.XLSX is classified as
binary. -/
theorem extension_match_case_insensitive (p : Str) (fb : Option Bool)
    (m : Option Str) (ok : Bool) :
    isBinaryFile p fb m ok = isBinaryFile (pyLower p) fb m ok
    ∧ isBinaryFile "REPORT.XLSX".toList none m ok = true := by
  constructor
  · cases fb with
    | some b => rfl
    | none =>
      simp only [isBinaryFile]
      rw [pyLower_idem]
  · simp only [isBinaryFile]
    rw [if_pos (by decide)]

end CRT
